import Mathlib

/-
Shallow embedding of the GPU cluster monitoring engine
(src/gpu_monitor/core.py and src/gpu_monitor/models.py).

Modelling conventions:
  * wall-clock times, TTLs and timeouts are `Int` (seconds resp. ms);
  * the remote-execution boundary (ssh subprocess) is an oracle
    `ExecOracle : hostname → command → ExecOutcome × elapsedMs`;
  * the aggregator's unexpected-exception branch is driven by an oracle
    `String → Option String` (server id → exception text, if any);
  * every engine operation explicitly threads the cache and returns the
    list of remote commands it issued, so that "issues no remote
    command" and "does not modify the cache" are statable.
-/

namespace GpuMon

/-- GPUInfo from models.py.  Memory fields are `Int` because the source
computes `memory_free_mb = int(total_mem) - int(used_mem)`, which in
Python can be negative. -/
structure GPUInfo where
  index : Nat
  name : String
  utilization_percent : Nat
  memory_used_mb : Int
  memory_total_mb : Int
  memory_free_mb : Int
  temperature_c : Option Int := none
  power_draw_w : Option Int := none
deriving DecidableEq, Repr

/-- ProcessInfo from models.py. -/
structure ProcessInfo where
  pid : Nat
  username : String
  gpu_index : Nat
  memory_used_mb : Int
  process_name : String
deriving DecidableEq, Repr

/-- ServerStatus from models.py; `last_updated` (datetime.now()) is the
`Int` clock value passed to the producing operation. -/
structure ServerStatus where
  server_id : String
  hostname : String
  online : Bool
  error_message : Option String := none
  gpus : List GPUInfo := []
  processes : List ProcessInfo := []
  last_updated : Int
  response_time_ms : Option Int := none
deriving DecidableEq, Repr

/-- ServerConfig from models.py. -/
structure ServerConfig where
  id : String
  hostname : String
  description : String := ""
deriving DecidableEq, Repr

/-- The settings dict of ClusterConfig; a missing key models a dict
without that key, read through `settings.get(key, default)`. -/
structure Settings where
  cache_ttl : Option Int := none
  ssh_timeout : Option Int := none
  max_concurrent : Option Nat := none
deriving DecidableEq, Repr

/-- settings.get("cache_ttl", 30) -/
def Settings.getCacheTtl (s : Settings) : Int := s.cache_ttl.getD 30

/-- settings.get("ssh_timeout", 5) -/
def Settings.getSshTimeout (s : Settings) : Int := s.ssh_timeout.getD 5

/-- ClusterConfig from models.py. -/
structure ClusterConfig where
  servers : List ServerConfig
  settings : Settings := {}
deriving DecidableEq, Repr

/-- ClusterStatus from models.py. -/
structure ClusterStatus where
  servers : List ServerStatus
  total_gpus : Nat
  online_servers : Nat
  total_servers : Nat
  last_updated : Int
deriving DecidableEq, Repr

/-- UserUsageSummary from models.py; `processes_by_server` is the
insertion-ordered dict, modelled as an association list. -/
structure UserUsageSummary where
  username : String
  total_processes : Nat
  total_memory_used_mb : Int
  servers_used : List String
  processes_by_server : List (String × List ProcessInfo)
  last_updated : Int
deriving DecidableEq, Repr

/- ===== string helpers (Python str operations on the char level, so
that everything reduces inside the kernel) ===== -/

/-- Python str.strip on a char list: drop whitespace from both ends. -/
def trimL (cs : List Char) : List Char :=
  ((cs.dropWhile Char.isWhitespace).reverse.dropWhile Char.isWhitespace).reverse

/-- Python str.strip. -/
def trimS (s : String) : String := String.mk (trimL s.data)

/-- Python str.split with separator a single newline; helper with the
accumulator for the current line (kept reversed). -/
def splitLinesAux : List Char → List Char → List (List Char)
  | [], acc => [acc.reverse]
  | c :: rest, acc =>
    if c = '\n' then acc.reverse :: splitLinesAux rest []
    else splitLinesAux rest (c :: acc)

/-- output.split with a newline separator. -/
def splitLines (cs : List Char) : List (List Char) := splitLinesAux cs []

/-- whether `pat` is an initial segment of `s`. -/
def beginsWith : List Char → List Char → Bool
  | [], _ => true
  | _ :: _, [] => false
  | p :: ps, c :: cs => p == c && beginsWith ps cs

/-- Python substring test `pat in s`. -/
def containsSub : List Char → List Char → Bool
  | [], pat => pat.isEmpty
  | c :: rest, pat => beginsWith pat (c :: rest) || containsSub rest pat

/-- numeric value of a decimal digit character. -/
def digitVal (c : Char) : Nat := c.toNat - 48

/-- value of a digit string (match group fed through Python int). -/
def digitsToNat (ds : List Char) : Nat := ds.foldl (fun n c => 10 * n + digitVal c) 0

/-- greedy parse of a nonempty maximal digit run, as a regex atom of
the shape found in the source patterns. -/
def takeDigits (cs : List Char) : Option (Nat × List Char) :=
  let ds := cs.takeWhile Char.isDigit
  if ds.isEmpty then none
  else some (digitsToNat ds, cs.dropWhile Char.isDigit)

/- ===== telemetry parser (_parse_nvidia_smi_output) =====

The source matches each stripped line against
  re.search of   GPU (\d+).*?(\d+)%.*?(\d+)/(\d+)\s*MB
and
  re.search of   PID\s+(\d+)\s+(\w+)\s+GPU:(\d+)\s+(\d+)MB\s+(.+)
The functions below implement the search semantics of those two fixed
patterns directly: they are deterministic because in both patterns no
greedy atom can productively backtrack (a shorter digit run is still
followed by a digit where the next literal is required, etc.), and a
lazy gap is realised by trying every skip amount in increasing order. -/

/-- attempt the fragment digits-then-percent at the current position. -/
def utilAt (cs : List Char) : Option (Nat × List Char) :=
  match takeDigits cs with
  | none => none
  | some (n, rest) =>
    match rest with
    | '%' :: rest2 => some (n, rest2)
    | _ => none

/-- lazy gap followed by the digits-then-percent fragment: try every
start position left to right. -/
def findUtil : List Char → Option (Nat × List Char)
  | [] => none
  | c :: rest =>
    match utilAt (c :: rest) with
    | some r => some r
    | none => findUtil rest

/-- attempt used/total memory, a gap of whitespace, then the MB marker
at the current position. -/
def memAt (cs : List Char) : Option (Nat × Nat × List Char) :=
  match takeDigits cs with
  | none => none
  | some (u, r1) =>
    match r1 with
    | '/' :: r2 =>
      match takeDigits r2 with
      | none => none
      | some (t, r3) =>
        match r3.dropWhile Char.isWhitespace with
        | 'M' :: 'B' :: r5 => some (u, t, r5)
        | _ => none
    | _ => none

/-- lazy gap followed by the memory fragment. -/
def findMem : List Char → Option (Nat × Nat × List Char)
  | [] => none
  | c :: rest =>
    match memAt (c :: rest) with
    | some r => some r
    | none => findMem rest

/-- the GPU pattern after its leading literal. -/
def gpuAfterLit (cs : List Char) : Option (Nat × Nat × Nat × Nat) :=
  match takeDigits cs with
  | none => none
  | some (g1, r1) =>
    match findUtil r1 with
    | none => none
    | some (g2, r2) =>
      match findMem r2 with
      | none => none
      | some (g3, g4, _) => some (g1, g2, g3, g4)

/-- the GPU pattern anchored at the current position. -/
def gpuMatchHere (cs : List Char) : Option (Nat × Nat × Nat × Nat) :=
  match cs with
  | 'G' :: 'P' :: 'U' :: ' ' :: rest => gpuAfterLit rest
  | _ => none

/-- re.search of the GPU pattern: leftmost successful start. -/
def gpuSearch : List Char → Option (Nat × Nat × Nat × Nat)
  | [] => none
  | c :: rest =>
    match gpuMatchHere (c :: rest) with
    | some r => some r
    | none => gpuSearch rest

/-- one-or-more whitespace, greedy. -/
def takeWs1 (cs : List Char) : Option (List Char) :=
  let ws := cs.takeWhile Char.isWhitespace
  if ws.isEmpty then none else some (cs.dropWhile Char.isWhitespace)

/-- a word character as in the source's process pattern. -/
def isWordChar (c : Char) : Bool := c.isAlphanum || c = '_'

/-- one-or-more word characters, greedy. -/
def takeWord (cs : List Char) : Option (String × List Char) :=
  let ws := cs.takeWhile isWordChar
  if ws.isEmpty then none else some (String.mk ws, cs.dropWhile isWordChar)

/-- tail of the process pattern: whitespace then a nonempty remainder
capture.  When the remainder after a maximal whitespace run is empty
but the run has length at least two, the whitespace atom backs off by
one character and the capture is that final whitespace character. -/
def procTail (pid : Nat) (user : String) (gidx mem : Nat) (r : List Char) :
    Option (Nat × String × Nat × Nat × String) :=
  let ws := r.takeWhile Char.isWhitespace
  let rest := r.dropWhile Char.isWhitespace
  if ws.isEmpty then none
  else if rest.isEmpty then
    if 2 ≤ ws.length then some (pid, user, gidx, mem, String.mk (ws.drop (ws.length - 1)))
    else none
  else some (pid, user, gidx, mem, String.mk rest)

/-- the process pattern after its leading literal. -/
def procAfterLit (cs : List Char) : Option (Nat × String × Nat × Nat × String) :=
  match takeWs1 cs with
  | none => none
  | some r1 =>
    match takeDigits r1 with
    | none => none
    | some (pid, r2) =>
      match takeWs1 r2 with
      | none => none
      | some r3 =>
        match takeWord r3 with
        | none => none
        | some (user, r4) =>
          match takeWs1 r4 with
          | none => none
          | some r5 =>
            match r5 with
            | 'G' :: 'P' :: 'U' :: ':' :: r6 =>
              match takeDigits r6 with
              | none => none
              | some (gidx, r7) =>
                match takeWs1 r7 with
                | none => none
                | some r8 =>
                  match takeDigits r8 with
                  | none => none
                  | some (mem, r9) =>
                    match r9 with
                    | 'M' :: 'B' :: r10 => procTail pid user gidx mem r10
                    | _ => none
            | _ => none

/-- the process pattern anchored at the current position. -/
def procMatchHere (cs : List Char) : Option (Nat × String × Nat × Nat × String) :=
  match cs with
  | 'P' :: 'I' :: 'D' :: rest => procAfterLit rest
  | _ => none

/-- re.search of the process pattern: leftmost successful start. -/
def procSearch : List Char → Option (Nat × String × Nat × Nat × String)
  | [] => none
  | c :: rest =>
    match procMatchHere (c :: rest) with
    | some r => some r
    | none => procSearch rest

/-- line loop of _parse_nvidia_smi_output: strip each line, skip empty
lines, append a GPUInfo when the line passes the GPU token guard and
pattern, and a ProcessInfo when it passes the PID/Memory token guard
and pattern (the two tests are independent, as in the source).  The
try/except of the source has no effect here: the model never raises. -/
def parseLines : List (List Char) → List GPUInfo × List ProcessInfo
  | [] => ([], [])
  | l :: rest =>
    let line := trimL l
    if line.isEmpty then parseLines rest
    else
      let tl := parseLines rest
      let gs :=
        if containsSub line ("GPU".data) && containsSub line ("%".data) then
          match gpuSearch line with
          | some (gi, util, um, tm) =>
            { index := gi, name := "Tesla V100", utilization_percent := util,
              memory_used_mb := (um : Int), memory_total_mb := (tm : Int),
              memory_free_mb := (tm : Int) - (um : Int),
              temperature_c := none, power_draw_w := none } :: tl.1
          | none => tl.1
        else tl.1
      let ps :=
        if containsSub line ("PID".data) && containsSub line ("Memory".data) then
          match procSearch line with
          | some (pid, user, gidx, mem, pname) =>
            { pid := pid, username := user, gpu_index := gidx,
              memory_used_mb := (mem : Int), process_name := trimS pname } :: tl.2
          | none => tl.2
        else tl.2
      (gs, ps)

/-- _parse_nvidia_smi_output from core.py. -/
def parse_nvidia_smi_output (output : String) : List GPUInfo × List ProcessInfo :=
  parseLines (splitLines output.data)

/- ===== remote command runner (_run_ssh_command) ===== -/

/-- outcome of one remote command at the remote-execution boundary:
the subprocess completed with an exit code and streams, the wait timed
out, or the attempt raised some other exception. -/
inductive ExecOutcome where
  | completed (returncode : Int) (stdout stderr : String)
  | timedOut
  | exn (msg : String)
deriving DecidableEq, Repr

/-- the ambient remote-execution mechanism: what running a given
command against a given hostname does, together with the measured
elapsed time in ms. -/
abbrev ExecOracle := String → String → ExecOutcome × Int

/-- _run_ssh_command from core.py: interprets the outcome of the ssh
subprocess.  Exit code zero gives success with the stripped stdout,
a nonzero code gives failure with the stripped stderr, a timeout gives
failure with a message naming the configured timeout, and any other
exception gives failure with its text.  Every path returns the triple;
the model is a total function, so it never raises. -/
def run_ssh_command (timeout : Int) (outcome : ExecOutcome) (elapsedMs : Int) :
    Bool × String × Int :=
  match outcome with
  | .completed rc stdout stderr =>
    if rc = 0 then (true, trimS stdout, elapsedMs)
    else (false, trimS stderr, elapsedMs)
  | .timedOut => (false, "SSH timeout after " ++ toString timeout ++ "s", elapsedMs)
  | .exn msg => (false, msg, elapsedMs)

/- ===== freshness cache ===== -/

/-- the _cache dict: key → (data, timestamp). -/
abbrev Cache := String → Option (ServerStatus × Int)

/-- the cache key used for a server id: "server_status_" + id. -/
def cacheKeyOf (sid : String) : String := "server_status_" ++ sid

/-- _is_cache_valid from core.py. -/
def is_cache_valid (cache : Cache) (key : String) (ttl : Int) (now : Int) : Bool :=
  match cache key with
  | none => false
  | some (_, timestamp) => decide (now - timestamp < ttl)

/-- _get_cached from core.py (returns the data whenever the key is
present, without a freshness test of its own). -/
def get_cached (cache : Cache) (key : String) : Option ServerStatus :=
  match cache key with
  | none => none
  | some (data, _) => some data

/-- _set_cache from core.py: store data with the current timestamp. -/
def set_cache (cache : Cache) (key : String) (data : ServerStatus) (now : Int) : Cache :=
  fun k => if k = key then some (data, now) else cache k

/-- cache-entry removal, as done inside kill_user_tasks (the source
guards the del with a membership test; removal of an absent key is the
identity either way). -/
def cache_delete (cache : Cache) (key : String) : Cache :=
  fun k => if k = key then none else cache k

/- ===== server status resolver (_get_server_status) ===== -/

/-- the combined telemetry command issued by _get_server_status. -/
def nvidiaSmiCommand : String :=
  "nvidia-smi --query-gpu=index,name,utilization.gpu,memory.used,memory.total,temperature.gpu,power.draw --format=csv,noheader,nounits && echo \x27---PROCESSES---\x27 && nvidia-smi pmon -c 1"

/-- the cache-miss path of _get_server_status: run the combined
command, build the online or offline ServerStatus, cache it, and
report the one issued command. -/
def resolveFresh (cfg : ClusterConfig) (exec : ExecOracle) (now : Int)
    (cache : Cache) (server : ServerConfig) :
    ServerStatus × Cache × List (String × String) :=
  let oe := exec server.hostname nvidiaSmiCommand
  let r := run_ssh_command cfg.settings.getSshTimeout oe.1 oe.2
  let status : ServerStatus :=
    if r.1 then
      let gp := parse_nvidia_smi_output r.2.1
      { server_id := server.id, hostname := server.hostname, online := true,
        error_message := none, gpus := gp.1, processes := gp.2,
        last_updated := now, response_time_ms := some r.2.2 }
    else
      { server_id := server.id, hostname := server.hostname, online := false,
        error_message := some r.2.1, gpus := [], processes := [],
        last_updated := now, response_time_ms := some r.2.2 }
  (status, set_cache cache (cacheKeyOf server.id) status now,
   [(server.hostname, nvidiaSmiCommand)])

/-- _get_server_status from core.py: serve a valid cached entry, else
resolve fresh.  Returns the status, the cache afterwards, and the list
of remote commands issued. -/
def get_server_status (cfg : ClusterConfig) (exec : ExecOracle) (now : Int)
    (cache : Cache) (server : ServerConfig) :
    ServerStatus × Cache × List (String × String) :=
  let key := cacheKeyOf server.id
  let ttl := cfg.settings.getCacheTtl
  if is_cache_valid cache key ttl now then
    match get_cached cache key with
    | some data => (data, cache, [])
    | none => resolveFresh cfg exec now cache server
  else resolveFresh cfg exec now cache server

/- ===== cluster aggregator (get_cluster_status) ===== -/

/-- the synthetic offline status substituted when resolving a server
raises unexpectedly inside the aggregator. -/
def errorStatus (server : ServerConfig) (msg : String) (now : Int) : ServerStatus :=
  { server_id := server.id, hostname := server.hostname, online := false,
    error_message := some msg, gpus := [], processes := [],
    last_updated := now, response_time_ms := none }

/-- the server selection of get_cluster_status.  The source tests
`if server_ids:`, which in Python is false both for None and for an
empty list, so an empty filter selects all configured servers. -/
def serversToCheck (servers : List ServerConfig) (server_ids : Option (List String)) :
    List ServerConfig :=
  match server_ids with
  | none => servers
  | some ids =>
    if ids.isEmpty then servers
    else servers.filter (fun s => ids.contains s.id)

/-- the fan-out over the selected servers.  The `raises` oracle says
whether a server's resolution fails with an unexpected exception; such
a server contributes the synthetic offline status (and, in this model,
no command and no cache write). -/
def resolveAll (cfg : ClusterConfig) (exec : ExecOracle)
    (raises : String → Option String) (now : Int) :
    List ServerConfig → Cache → List ServerStatus × Cache × List (String × String)
  | [], cache => ([], cache, [])
  | s :: rest, cache =>
    match raises s.id with
    | some msg =>
      let tl := resolveAll cfg exec raises now rest cache
      (errorStatus s msg now :: tl.1, tl.2.1, tl.2.2)
    | none =>
      let hd := get_server_status cfg exec now cache s
      let tl := resolveAll cfg exec raises now rest hd.2.1
      (hd.1 :: tl.1, tl.2.1, hd.2.2 ++ tl.2.2)

/-- get_cluster_status from core.py: select servers, resolve them all,
and reduce into the cluster summary. -/
def get_cluster_status (cfg : ClusterConfig) (exec : ExecOracle)
    (raises : String → Option String) (now : Int) (cache : Cache)
    (server_ids : Option (List String)) :
    ClusterStatus × Cache × List (String × String) :=
  let servers_to_check := serversToCheck cfg.servers server_ids
  let res := resolveAll cfg exec raises now servers_to_check cache
  let valid_statuses := res.1
  let total_gpus := ((valid_statuses.filter (fun s => s.online)).map
    (fun s => s.gpus.length)).sum
  let online_servers := (valid_statuses.filter (fun s => s.online)).length
  ({ servers := valid_statuses, total_gpus := total_gpus,
     online_servers := online_servers, total_servers := valid_statuses.length,
     last_updated := now }, res.2.1, res.2.2)

/- ===== usage engine (get_user_usage) ===== -/

/-- Python dict assignment d[k] = v on an insertion-ordered dict: an
existing key keeps its position and gets the new value, a new key is
appended at the end. -/
def dictInsert (d : List (String × List ProcessInfo)) (k : String)
    (v : List ProcessInfo) : List (String × List ProcessInfo) :=
  if d.any (fun kv => kv.1 == k) then
    d.map (fun kv => if kv.1 == k then (k, v) else kv)
  else d ++ [(k, v)]

/-- one iteration of the server loop in get_user_usage over the
accumulator (user_processes, servers_used, processes_by_server). -/
def usageStep (username : String)
    (acc : List ProcessInfo × List String × List (String × List ProcessInfo))
    (s : ServerStatus) :
    List ProcessInfo × List String × List (String × List ProcessInfo) :=
  if !s.online then acc
  else
    let server_processes := s.processes.filter (fun p => p.username == username)
    if server_processes.isEmpty then acc
    else
      (acc.1 ++ server_processes,
       acc.2.1 ++ [s.server_id],
       dictInsert acc.2.2 s.server_id server_processes)

/-- the pure reduction of get_user_usage from a list of resolved
statuses to the summary. -/
def userUsageFrom (username : String) (statuses : List ServerStatus) (now : Int) :
    UserUsageSummary :=
  let acc := statuses.foldl (usageStep username) ([], [], [])
  { username := username,
    total_processes := acc.1.length,
    total_memory_used_mb := (acc.1.map (fun p => p.memory_used_mb)).sum,
    servers_used := acc.2.1,
    processes_by_server := acc.2.2,
    last_updated := now }

/-- get_user_usage from core.py. -/
def get_user_usage (cfg : ClusterConfig) (exec : ExecOracle)
    (raises : String → Option String) (now : Int) (cache : Cache)
    (username : String) (server_ids : Option (List String)) :
    UserUsageSummary × Cache × List (String × String) :=
  let cs := get_cluster_status cfg exec raises now cache server_ids
  (userUsageFrom username cs.1.servers now, cs.2.1, cs.2.2)

/- ===== kill engine (kill_user_tasks) ===== -/

/-- the termination command bundling all matched pids of one server. -/
def killCommandFor (processes : List ProcessInfo) : String :=
  "kill -9 " ++ String.intercalate " " (processes.map (fun p => toString p.pid))

/-- the per-server loop of kill_user_tasks over the entries of
usage.processes_by_server, threading the results dict (an append-only
association list here) and the cache, and logging issued commands. -/
def killLoop (cfg : ClusterConfig) (exec : ExecOracle) :
    List (String × List ProcessInfo) → List (String × String) → Cache →
    List (String × String) × Cache × List (String × String)
  | [], results, cache => (results, cache, [])
  | (server_id, processes) :: rest, results, cache =>
    match cfg.servers.find? (fun s => s.id == server_id) with
    | none =>
      killLoop cfg exec rest (results ++ [(server_id, "Server config not found")]) cache
    | some server =>
      let kill_command := killCommandFor processes
      let oe := exec server.hostname kill_command
      let r := run_ssh_command cfg.settings.getSshTimeout oe.1 oe.2
      if r.1 then
        let tl := killLoop cfg exec rest
          (results ++ [(server_id, "Killed " ++ toString processes.length ++ " processes")])
          (cache_delete cache (cacheKeyOf server_id))
        (tl.1, tl.2.1, (server.hostname, kill_command) :: tl.2.2)
      else
        let tl := killLoop cfg exec rest
          (results ++ [(server_id, "Failed to kill processes: " ++ r.2.1)])
          cache
        (tl.1, tl.2.1, (server.hostname, kill_command) :: tl.2.2)

/-- kill_user_tasks from core.py.  The special single-entry results of
the source, keyed "error" and "message", are modelled as the
corresponding association-list entries. -/
def kill_user_tasks (cfg : ClusterConfig) (exec : ExecOracle)
    (raises : String → Option String) (now : Int) (cache : Cache)
    (username : String) (server_ids : Option (List String)) (confirm : Bool) :
    List (String × String) × Cache × List (String × String) :=
  if !confirm then
    ([("error", "Must set confirm=True to kill user tasks")], cache, [])
  else
    let u := get_user_usage cfg exec raises now cache username server_ids
    if u.1.processes_by_server.isEmpty then
      ([("message", "No processes found for user " ++ username)], u.2.1, u.2.2)
    else
      let kl := killLoop cfg exec u.1.processes_by_server [] u.2.1
      (kl.1, kl.2.1, u.2.2 ++ kl.2.2)

/- ===== properties ===== -/

/-- well-formedness of cache states reachable by the engine: every
entry sits under the key derived from its own server id.  The engine
only ever stores a freshly built status of server s under
cacheKeyOf s.id, so this holds for every reachable cache. -/
def CacheWF (c : Cache) : Prop :=
  ∀ k st ts, c k = some (st, ts) → k = cacheKeyOf st.server_id

/-- the ServerStatus shape invariant of the spec data model:
error_message present iff offline, and empty telemetry when offline. -/
def statusOk (s : ServerStatus) : Prop :=
  (s.error_message.isSome = true ↔ s.online = false) ∧
  (s.online = false → s.gpus = [] ∧ s.processes = [])

/-- every cached entry satisfies the status shape invariant. -/
def CacheOk (c : Cache) : Prop :=
  ∀ k st ts, c k = some (st, ts) → statusOk st

/-- the processes of one resolved server that get_user_usage keeps for
a given username: its exact-match filter when the server is online,
nothing when it is offline. -/
def matchedOn (username : String) (s : ServerStatus) : List ProcessInfo :=
  if s.online then s.processes.filter (fun p => p.username == username) else []

/-- the resolved servers that contribute to a user's usage summary:
online with a nonempty match. -/
def contributing (username : String) (sts : List ServerStatus) : List ServerStatus :=
  sts.filter (fun s =>
    s.online && !(s.processes.filter (fun p => p.username == username)).isEmpty)

/- ===== concrete fixtures for witnesses and counterexamples ===== -/

/-- fixture server 1. -/
def srvW : ServerConfig := { id := "gpu01", hostname := "h1" }

/-- fixture server 2. -/
def srvW2 : ServerConfig := { id := "gpu02", hostname := "h2" }

/-- fixture configuration with default settings. -/
def cfgW : ClusterConfig := { servers := [srvW, srvW2] }

/-- the empty cache. -/
def emptyCache : Cache := fun _ => none

/-- oracle under which no resolution raises unexpectedly. -/
def noRaise : String → Option String := fun _ => none

/-- oracle under which every remote command fails at once. -/
def execFail : ExecOracle := fun _ _ =>
  (ExecOutcome.completed 255 "" "Connection refused", 4)

/-- oracle under which every remote command succeeds with empty
output. -/
def execOkEmpty : ExecOracle := fun _ _ => (ExecOutcome.completed 0 "" "", 3)

/-- oracle for the usage and kill witnesses: fixture server 1 reports
one GPU and one process owned by alice, answers every other command
with success and empty output; fixture server 2 is unreachable. -/
def execW : ExecOracle := fun h c =>
  if h = "h1" then
    if c = nvidiaSmiCommand then
      (ExecOutcome.completed 0
        "GPU 0: V, 85% u, 100/200 MB\nMemory PID 11 alice GPU:0 50MB python" "", 3)
    else (ExecOutcome.completed 0 "" "", 2)
  else (ExecOutcome.completed 255 "" "Connection refused", 4)

/-- a cached online status for fixture server 1, stored at time 0. -/
def s0W : ServerStatus :=
  { server_id := "gpu01", hostname := "h1", online := true, last_updated := 0 }

/-- fixture cache holding s0W under the key of fixture server 1. -/
def cacheC2 : Cache :=
  fun k => if k = "server_status_gpu01" then some (s0W, 0) else none

end GpuMon

/- ===================== theorems ===================== -/

namespace GpuMon

theorem cacheKeyOf_inj {a b : String} (h : cacheKeyOf a = cacheKeyOf b) : a = b := by
  have h2 := congrArg String.data h
  simp only [cacheKeyOf, String.data_append] at h2
  exact String.ext (List.append_cancel_left h2)

/-- C1: with confirm = false, kill_user_tasks returns the single error
entry, leaves the cache untouched, and issues no remote command, for
every username, filter, oracle and cache state. -/
theorem claim_C1 (cfg : ClusterConfig) (exec : ExecOracle)
    (raises : String → Option String) (now : Int) (cache : Cache)
    (username : String) (server_ids : Option (List String)) :
    kill_user_tasks cfg exec raises now cache username server_ids false
      = ([("error", "Must set confirm=True to kill user tasks")], cache, []) := rfl

theorem sum_filter_online (l : List ServerStatus) :
    ((l.filter (fun s => s.online)).map (fun s => s.gpus.length)).sum
      = (l.map (fun s => if s.online then s.gpus.length else 0)).sum := by
  induction l with
  | nil => rfl
  | cons s rest ih => by_cases h : s.online <;> simp [h, ih]

/-- C4: in every ClusterStatus built by get_cluster_status, total_gpus
is the sum of gpu counts over online servers (offline ones contribute
zero) and online_servers counts the online entries. -/
theorem claim_C4 (cfg : ClusterConfig) (exec : ExecOracle)
    (raises : String → Option String) (now : Int) (cache : Cache)
    (server_ids : Option (List String)) :
    (get_cluster_status cfg exec raises now cache server_ids).1.total_gpus
      = ((get_cluster_status cfg exec raises now cache server_ids).1.servers.map
          (fun s => if s.online then s.gpus.length else 0)).sum
    ∧ (get_cluster_status cfg exec raises now cache server_ids).1.online_servers
      = ((get_cluster_status cfg exec raises now cache server_ids).1.servers.filter
          (fun s => s.online)).length :=
  ⟨sum_filter_online _, rfl⟩

/-- C6: the remote command runner is a total function into result
triples (it cannot raise), it reports the measured elapsed time on
every path, a timeout yields failure with a message that contains the
configured timeout value, a zero exit status yields success with the
trimmed stdout, a nonzero exit status yields failure with the trimmed
stderr, and an exception yields failure with its text. -/
theorem claim_C6 (t el : Int) (o : ExecOutcome) :
    (run_ssh_command t o el).2.2 = el
    ∧ (o = ExecOutcome.timedOut →
        (run_ssh_command t o el).1 = false
        ∧ ∃ pre suf, (run_ssh_command t o el).2.1.data
            = pre ++ (toString t).data ++ suf)
    ∧ (∀ rc so se, o = ExecOutcome.completed rc so se →
        (rc = 0 → run_ssh_command t o el = (true, trimS so, el))
        ∧ (rc ≠ 0 → run_ssh_command t o el = (false, trimS se, el)))
    ∧ (∀ m, o = ExecOutcome.exn m → run_ssh_command t o el = (false, m, el)) := by
  refine ⟨?_, ?_, ?_, ?_⟩
  · cases o with
    | completed rc so se =>
      by_cases h : rc = 0 <;> simp [run_ssh_command, h]
    | timedOut => rfl
    | exn m => rfl
  · rintro rfl
    refine ⟨rfl, "SSH timeout after ".data, "s".data, ?_⟩
    simp [run_ssh_command, String.data_append]
  · rintro rc so se rfl
    constructor
    · rintro rfl; simp [run_ssh_command]
    · intro h; simp [run_ssh_command, h]
  · rintro m rfl; rfl

/-- witness for C6 at the concrete timeout outcome. -/
theorem claim_C6_witness :
    (run_ssh_command 5 ExecOutcome.timedOut 100).1 = false
    ∧ ∃ pre suf, (run_ssh_command 5 ExecOutcome.timedOut 100).2.1.data
        = pre ++ (toString (5 : Int)).data ++ suf :=
  (claim_C6 5 100 ExecOutcome.timedOut).2.1 rfl

theorem parseLines_gpu_name (ls : List (List Char)) :
    ∀ g ∈ (parseLines ls).1, g.name = "Tesla V100" := by
  induction ls with
  | nil => intro g hg; simp [parseLines] at hg
  | cons l rest ih =>
    intro g hg
    rw [parseLines] at hg
    by_cases he : (trimL l).isEmpty
    · simp only [he, if_true] at hg
      exact ih g hg
    · simp only [he, Bool.false_eq_true, if_false] at hg
      by_cases hc : containsSub (trimL l) ("GPU".data) && containsSub (trimL l) ("%".data)
      · simp only [hc, if_true] at hg
        rcases hs : gpuSearch (trimL l) with _ | ⟨gi, util, um, tm⟩
        · simp only [hs] at hg
          exact ih g hg
        · simp only [hs] at hg
          rcases List.mem_cons.mp hg with h | h
          · subst h; rfl
          · exact ih g h
      · simp only [hc, Bool.false_eq_true, if_false] at hg
        exact ih g hg

/-- C9: every GPUInfo the telemetry parser produces carries the
literal name Tesla V100, whatever the raw input names. -/
theorem claim_C9 (output : String) (g : GPUInfo)
    (hg : g ∈ (parse_nvidia_smi_output output).1) : g.name = "Tesla V100" :=
  parseLines_gpu_name _ g hg

/-- witness for C9 on a concrete line that names a different GPU
model. -/
theorem claim_C9_witness :
    ∃ g ∈ (parse_nvidia_smi_output "GPU 0: A100, 85% util, 100/200 MB").1,
      g.name = "Tesla V100" := by
  refine ⟨{ index := 0, name := "Tesla V100", utilization_percent := 85,
            memory_used_mb := 100, memory_total_mb := 200, memory_free_mb := 100,
            temperature_c := none, power_draw_w := none }, ?_, ?_⟩
  · decide
  · exact claim_C9 "GPU 0: A100, 85% util, 100/200 MB" _ (by decide)

/-- counterexample to C2 as stated: with a pre-existing cache entry
stored at time 0 and ttl 30, resolve calls at times 29 and 31 are
within cache_ttl seconds of each other with no intervening invalidate,
yet the second call issues a remote command and returns a different
ServerStatus (the entry expired between the calls). -/
theorem claim_C2_cex :
    (get_server_status cfgW execFail 29 cacheC2 srvW).1 = s0W
    ∧ (get_server_status cfgW execFail 29 cacheC2 srvW).2.2 = []
    ∧ (get_server_status cfgW execFail 31
        (get_server_status cfgW execFail 29 cacheC2 srvW).2.1 srvW).2.2 ≠ []
    ∧ (get_server_status cfgW execFail 31
        (get_server_status cfgW execFail 29 cacheC2 srvW).2.1 srvW).1
      ≠ (get_server_status cfgW execFail 29 cacheC2 srvW).1 := by decide

/-- counterexample to C3 as stated: with an explicitly passed empty
filter list, the source's `if server_ids:` test is false, so all
configured servers are returned even though none of their ids is in
the filter, and total_servers is 2 rather than 0. -/
theorem claim_C3_cex :
    (get_cluster_status cfgW execFail noRaise 0 emptyCache (some [])).1.servers.map
        (fun s => s.server_id) = ["gpu01", "gpu02"]
    ∧ (get_cluster_status cfgW execFail noRaise 0 emptyCache (some [])).1.total_servers = 2
    ∧ ¬ ("gpu01" ∈ ([] : List String)) := by decide

/- ===== resolver lemmas ===== -/

theorem get_server_status_of_miss (cfg : ClusterConfig) (exec : ExecOracle)
    (now : Int) (cache : Cache) (server : ServerConfig)
    (h : is_cache_valid cache (cacheKeyOf server.id) cfg.settings.getCacheTtl now = false) :
    get_server_status cfg exec now cache server = resolveFresh cfg exec now cache server := by
  unfold get_server_status
  simp [h]

theorem get_server_status_of_hit (cfg : ClusterConfig) (exec : ExecOracle)
    (now : Int) (cache : Cache) (server : ServerConfig) (st : ServerStatus) (ts : Int)
    (hdata : cache (cacheKeyOf server.id) = some (st, ts))
    (hfresh : now - ts < cfg.settings.getCacheTtl) :
    get_server_status cfg exec now cache server = (st, cache, []) := by
  have hv : is_cache_valid cache (cacheKeyOf server.id) cfg.settings.getCacheTtl now = true := by
    unfold is_cache_valid
    rw [hdata]
    simpa using hfresh
  unfold get_server_status
  simp [hv, get_cached, hdata]

theorem stale_entry_invalid (cfg : ClusterConfig) (cache : Cache) (key : String)
    (st : ServerStatus) (ts now : Int)
    (hdata : cache key = some (st, ts))
    (hstale : cfg.settings.getCacheTtl ≤ now - ts) :
    is_cache_valid cache key cfg.settings.getCacheTtl now = false := by
  unfold is_cache_valid
  rw [hdata]
  simpa using hstale

theorem resolveFresh_sid (cfg : ClusterConfig) (exec : ExecOracle)
    (now : Int) (cache : Cache) (server : ServerConfig) :
    (resolveFresh cfg exec now cache server).1.server_id = server.id := by
  unfold resolveFresh
  by_cases h : (run_ssh_command cfg.settings.getSshTimeout
      (exec server.hostname nvidiaSmiCommand).1
      (exec server.hostname nvidiaSmiCommand).2).1 <;> simp [h]

theorem resolveFresh_cache_eq (cfg : ClusterConfig) (exec : ExecOracle)
    (now : Int) (cache : Cache) (server : ServerConfig) :
    (resolveFresh cfg exec now cache server).2.1
      = set_cache cache (cacheKeyOf server.id)
          (resolveFresh cfg exec now cache server).1 now := by
  unfold resolveFresh
  by_cases h : (run_ssh_command cfg.settings.getSshTimeout
      (exec server.hostname nvidiaSmiCommand).1
      (exec server.hostname nvidiaSmiCommand).2).1 <;> simp [h]

theorem resolveFresh_log (cfg : ClusterConfig) (exec : ExecOracle)
    (now : Int) (cache : Cache) (server : ServerConfig) :
    (resolveFresh cfg exec now cache server).2.2
      = [(server.hostname, nvidiaSmiCommand)] := by
  unfold resolveFresh
  by_cases h : (run_ssh_command cfg.settings.getSshTimeout
      (exec server.hostname nvidiaSmiCommand).1
      (exec server.hostname nvidiaSmiCommand).2).1 <;> simp [h]

theorem resolveFresh_statusOk (cfg : ClusterConfig) (exec : ExecOracle)
    (now : Int) (cache : Cache) (server : ServerConfig) :
    statusOk (resolveFresh cfg exec now cache server).1 := by
  unfold resolveFresh statusOk
  by_cases h : (run_ssh_command cfg.settings.getSshTimeout
      (exec server.hostname nvidiaSmiCommand).1
      (exec server.hostname nvidiaSmiCommand).2).1 <;> simp [h]

/-- C2 (amended): when the first resolve call finds no valid cache
entry (so it is the call that fetches and stores), a second resolve
call within cache_ttl seconds of it, with no intervening invalidate,
returns the identical ServerStatus, leaves the cache unchanged and
issues no remote command; and any resolve call finding an entry stored
cache_ttl or more seconds ago ignores it and issues the fresh remote
command. -/
theorem claim_C2 (cfg : ClusterConfig) (exec : ExecOracle) (now1 now2 : Int)
    (cache : Cache) (server : ServerConfig)
    (hmiss : is_cache_valid cache (cacheKeyOf server.id) cfg.settings.getCacheTtl now1 = false)
    (hwin : now2 - now1 < cfg.settings.getCacheTtl) :
    get_server_status cfg exec now2 (get_server_status cfg exec now1 cache server).2.1 server
      = ((get_server_status cfg exec now1 cache server).1,
         (get_server_status cfg exec now1 cache server).2.1, [])
    ∧ (∀ (c : Cache) (st : ServerStatus) (ts now3 : Int),
        c (cacheKeyOf server.id) = some (st, ts) →
        cfg.settings.getCacheTtl ≤ now3 - ts →
        (get_server_status cfg exec now3 c server).2.2
          = [(server.hostname, nvidiaSmiCommand)]) := by
  constructor
  · rw [get_server_status_of_miss cfg exec now1 cache server hmiss]
    have hkey : (resolveFresh cfg exec now1 cache server).2.1 (cacheKeyOf server.id)
        = some ((resolveFresh cfg exec now1 cache server).1, now1) := by
      rw [resolveFresh_cache_eq]
      unfold set_cache
      simp
    exact get_server_status_of_hit cfg exec now2 _ server _ now1 hkey hwin
  · intro c st ts now3 hdata hstale
    rw [get_server_status_of_miss cfg exec now3 c server
      (stale_entry_invalid cfg c _ st ts now3 hdata hstale)]
    exact resolveFresh_log cfg exec now3 c server

/-- witness for C2 (amended) with an empty initial cache and the two
calls at times 0 and 10. -/
theorem claim_C2_witness :
    get_server_status cfgW execFail 10
        (get_server_status cfgW execFail 0 emptyCache srvW).2.1 srvW
      = ((get_server_status cfgW execFail 0 emptyCache srvW).1,
         (get_server_status cfgW execFail 0 emptyCache srvW).2.1, []) :=
  (claim_C2 cfgW execFail 0 10 emptyCache srvW (by decide) (by decide)).1

/- ===== status shape invariant (C8) ===== -/

theorem get_server_status_statusOk (cfg : ClusterConfig) (exec : ExecOracle)
    (now : Int) (cache : Cache) (server : ServerConfig) (hok : CacheOk cache) :
    statusOk (get_server_status cfg exec now cache server).1
    ∧ CacheOk (get_server_status cfg exec now cache server).2.1 := by
  by_cases hv : is_cache_valid cache (cacheKeyOf server.id) cfg.settings.getCacheTtl now
  · rcases hc : cache (cacheKeyOf server.id) with _ | ⟨st, ts⟩
    · exfalso
      unfold is_cache_valid at hv
      rw [hc] at hv
      simp at hv
    · rw [get_server_status_of_hit cfg exec now cache server st ts hc (by
        unfold is_cache_valid at hv
        rw [hc] at hv
        simpa using hv)]
      exact ⟨hok _ _ _ hc, hok⟩
  · rw [get_server_status_of_miss cfg exec now cache server (by simpa using hv)]
    refine ⟨resolveFresh_statusOk cfg exec now cache server, ?_⟩
    rw [resolveFresh_cache_eq]
    intro k st ts hk
    unfold set_cache at hk
    by_cases he : k = cacheKeyOf server.id
    · rw [if_pos he] at hk
      cases hk
      exact resolveFresh_statusOk cfg exec now cache server
    · rw [if_neg he] at hk
      exact hok _ _ _ hk

theorem errorStatus_statusOk (server : ServerConfig) (msg : String) (now : Int) :
    statusOk (errorStatus server msg now) := by
  unfold errorStatus statusOk
  simp

theorem resolveAll_statusOk (cfg : ClusterConfig) (exec : ExecOracle)
    (raises : String → Option String) (now : Int) :
    ∀ (servers : List ServerConfig) (cache : Cache), CacheOk cache →
      (∀ s ∈ (resolveAll cfg exec raises now servers cache).1, statusOk s)
      ∧ CacheOk (resolveAll cfg exec raises now servers cache).2.1 := by
  intro servers
  induction servers with
  | nil => intro cache hok; exact ⟨by intro s hs; simp [resolveAll] at hs, hok⟩
  | cons sv rest ih =>
    intro cache hok
    rw [resolveAll]
    rcases hr : raises sv.id with _ | msg
    · simp only
      have hhd := get_server_status_statusOk cfg exec now cache sv hok
      have htl := ih _ hhd.2
      refine ⟨?_, htl.2⟩
      intro s hs
      rcases List.mem_cons.mp hs with h | h
      · subst h; exact hhd.1
      · exact htl.1 s h
    · simp only
      have htl := ih cache hok
      refine ⟨?_, htl.2⟩
      intro s hs
      rcases List.mem_cons.mp hs with h | h
      · subst h; exact errorStatus_statusOk sv msg now
      · exact htl.1 s h

/-- C8: given a cache whose entries all satisfy the shape invariant,
the resolver's output and every entry it caches satisfy it, the
aggregator's synthetic offline substitute satisfies it, and so does
every ServerStatus in a get_cluster_status result: error_message is
present iff the server is offline, and offline statuses carry empty
gpu and process lists. -/
theorem claim_C8 (cfg : ClusterConfig) (exec : ExecOracle)
    (raises : String → Option String) (now : Int) (cache : Cache)
    (server : ServerConfig) (msg : String) (server_ids : Option (List String))
    (hok : CacheOk cache) :
    statusOk (get_server_status cfg exec now cache server).1
    ∧ CacheOk (get_server_status cfg exec now cache server).2.1
    ∧ statusOk (errorStatus server msg now)
    ∧ ∀ s ∈ (get_cluster_status cfg exec raises now cache server_ids).1.servers,
        statusOk s := by
  refine ⟨(get_server_status_statusOk cfg exec now cache server hok).1,
          (get_server_status_statusOk cfg exec now cache server hok).2,
          errorStatus_statusOk server msg now, ?_⟩
  intro s hs
  exact (resolveAll_statusOk cfg exec raises now
    (serversToCheck cfg.servers server_ids) cache hok).1 s hs

/-- witness for C8 on the failing fixture oracle and the empty
cache. -/
theorem claim_C8_witness :
    statusOk (get_server_status cfgW execFail 0 emptyCache srvW).1 :=
  (claim_C8 cfgW execFail noRaise 0 emptyCache srvW "boom" none
    (by intro k st ts hk; simp [emptyCache] at hk)).1

/- ===== aggregator selection (C3) ===== -/

theorem get_server_status_sid_wf (cfg : ClusterConfig) (exec : ExecOracle)
    (now : Int) (cache : Cache) (server : ServerConfig) (hwf : CacheWF cache) :
    (get_server_status cfg exec now cache server).1.server_id = server.id
    ∧ CacheWF (get_server_status cfg exec now cache server).2.1 := by
  by_cases hv : is_cache_valid cache (cacheKeyOf server.id) cfg.settings.getCacheTtl now
  · rcases hc : cache (cacheKeyOf server.id) with _ | ⟨st, ts⟩
    · exfalso
      unfold is_cache_valid at hv
      rw [hc] at hv
      simp at hv
    · rw [get_server_status_of_hit cfg exec now cache server st ts hc (by
        unfold is_cache_valid at hv
        rw [hc] at hv
        simpa using hv)]
      exact ⟨(cacheKeyOf_inj (hwf _ _ _ hc)).symm, hwf⟩
  · rw [get_server_status_of_miss cfg exec now cache server (by simpa using hv)]
    refine ⟨resolveFresh_sid cfg exec now cache server, ?_⟩
    rw [resolveFresh_cache_eq]
    intro k st ts hk
    unfold set_cache at hk
    by_cases he : k = cacheKeyOf server.id
    · rw [if_pos he] at hk
      cases hk
      rw [he, resolveFresh_sid]
    · rw [if_neg he] at hk
      exact hwf _ _ _ hk

theorem resolveAll_ids (cfg : ClusterConfig) (exec : ExecOracle)
    (raises : String → Option String) (now : Int) :
    ∀ (servers : List ServerConfig) (cache : Cache), CacheWF cache →
      ((resolveAll cfg exec raises now servers cache).1.map (fun s => s.server_id)
        = servers.map (fun s => s.id))
      ∧ CacheWF (resolveAll cfg exec raises now servers cache).2.1 := by
  intro servers
  induction servers with
  | nil => intro cache hwf; exact ⟨rfl, hwf⟩
  | cons sv rest ih =>
    intro cache hwf
    rw [resolveAll]
    rcases hr : raises sv.id with _ | msg
    · simp only [List.map_cons]
      have hhd := get_server_status_sid_wf cfg exec now cache sv hwf
      have htl := ih _ hhd.2
      exact ⟨by rw [hhd.1, htl.1], htl.2⟩
    · simp only [List.map_cons]
      have htl := ih cache hwf
      exact ⟨by rw [htl.1]; rfl, htl.2⟩

theorem serversToCheck_sublist (servers : List ServerConfig)
    (server_ids : Option (List String)) :
    (serversToCheck servers server_ids).Sublist servers := by
  rcases server_ids with _ | ids
  · exact List.Sublist.refl servers
  · by_cases h : ids.isEmpty <;> simp only [serversToCheck, h] <;>
      first
        | exact List.Sublist.refl servers
        | simp [List.filter_sublist]

theorem cluster_servers_ids (cfg : ClusterConfig) (exec : ExecOracle)
    (raises : String → Option String) (now : Int) (cache : Cache)
    (server_ids : Option (List String)) (hwf : CacheWF cache) :
    (get_cluster_status cfg exec raises now cache server_ids).1.servers.map
        (fun s => s.server_id)
      = (serversToCheck cfg.servers server_ids).map (fun s => s.id) :=
  (resolveAll_ids cfg exec raises now (serversToCheck cfg.servers server_ids)
    cache hwf).1

/-- C3 (amended): for every reachable cache state (entries keyed by
their own server id), the get_cluster_status result lists exactly the
configured servers whose ids are in the filter when the filter is
present and non-empty; when the filter is absent OR an empty list
(Python truthiness treats both alike) it lists all configured servers;
the result never contains a server outside the configured list,
total_servers equals the selected count, and the order is
configuration order, independent of filter order. -/
theorem claim_C3 (cfg : ClusterConfig) (exec : ExecOracle)
    (raises : String → Option String) (now : Int) (cache : Cache)
    (server_ids : Option (List String)) (hwf : CacheWF cache) :
    ((get_cluster_status cfg exec raises now cache server_ids).1.servers.map
        (fun s => s.server_id)
      = match server_ids with
        | none => cfg.servers.map (fun s => s.id)
        | some ids =>
          if ids.isEmpty then cfg.servers.map (fun s => s.id)
          else (cfg.servers.filter (fun s => ids.contains s.id)).map (fun s => s.id))
    ∧ (get_cluster_status cfg exec raises now cache server_ids).1.total_servers
        = (serversToCheck cfg.servers server_ids).length
    ∧ ∀ sid, sid ∈ (get_cluster_status cfg exec raises now cache server_ids).1.servers.map
          (fun s => s.server_id) →
        sid ∈ cfg.servers.map (fun s => s.id) := by
  have hids := cluster_servers_ids cfg exec raises now cache server_ids hwf
  refine ⟨?_, ?_, ?_⟩
  · rw [hids]
    unfold serversToCheck
    rcases server_ids with _ | ids
    · rfl
    · by_cases h : ids.isEmpty <;> simp [h]
  · have hlen := congrArg List.length hids
    simp only [List.length_map] at hlen
    exact hlen
  · intro sid hsid
    rw [hids] at hsid
    exact ((serversToCheck_sublist cfg.servers server_ids).map
      (fun s => s.id)).subset hsid

/-- witness for C3 (amended) with a singleton filter on the two-server
fixture. -/
theorem claim_C3_witness :
    (get_cluster_status cfgW execFail noRaise 0 emptyCache
        (some ["gpu02"])).1.servers.map (fun s => s.server_id) = ["gpu02"] := by
  have h := claim_C3 cfgW execFail noRaise 0 emptyCache (some ["gpu02"])
    (by intro k st ts hk; simp [emptyCache] at hk)
  rw [h.1]
  decide

/- ===== usage engine lemmas ===== -/

theorem matchedOn_of_online {u : String} {s : ServerStatus} (ho : s.online = true) :
    matchedOn u s = s.processes.filter (fun p => p.username == u) := by
  unfold matchedOn
  rw [if_pos ho]

theorem matchedOn_nil_cases {u : String} {s : ServerStatus}
    (hp : ¬(s.online && !(s.processes.filter (fun p => p.username == u)).isEmpty) = true) :
    matchedOn u s = [] := by
  unfold matchedOn
  by_cases ho : s.online
  · rw [if_pos ho]
    rw [ho] at hp
    simp only [Bool.true_and, Bool.not_eq_true', Bool.not_eq_false] at hp
    exact List.isEmpty_iff.mp hp
  · rw [if_neg ho]

theorem usage_foldl_char (u : String) :
    ∀ (sts : List ServerStatus) (a : List ProcessInfo) (b : List String)
      (d : List (String × List ProcessInfo)),
      ((d.map Prod.fst) ++ sts.map (fun s => s.server_id)).Nodup →
      sts.foldl (usageStep u) (a, b, d)
        = (a ++ (sts.map (matchedOn u)).flatten,
           b ++ (contributing u sts).map (fun s => s.server_id),
           d ++ (contributing u sts).map (fun s => (s.server_id, matchedOn u s))) := by
  intro sts
  induction sts with
  | nil =>
    intro a b d _
    simp [contributing]
  | cons s rest ih =>
    intro a b d hnd
    have hnd' : ((d.map Prod.fst) ++ rest.map (fun s => s.server_id)).Nodup :=
      List.Nodup.sublist
        (List.Sublist.append_left (List.sublist_cons_self _ _) _) hnd
    rw [List.foldl_cons]
    by_cases hp : (s.online && !(s.processes.filter (fun p => p.username == u)).isEmpty) = true
    · have ho : s.online = true := (Bool.and_eq_true _ _ ▸ hp).1
      have hm : (s.processes.filter (fun p => p.username == u)).isEmpty = false := by
        have := (Bool.and_eq_true _ _ ▸ hp).2
        simpa using this
      have hkey : (d.any (fun kv => kv.1 == s.server_id)) = false := by
        rw [List.any_eq_false]
        intro kv hkv hbeq
        have h1 : s.server_id ∈ d.map Prod.fst := by
          have : kv.1 = s.server_id := by simpa using hbeq
          exact this ▸ List.mem_map_of_mem Prod.fst hkv
        have h2 : s.server_id ∈ (s :: rest).map (fun s => s.server_id) := by simp
        exact (List.disjoint_of_nodup_append hnd) h1 h2
      have hstep : usageStep u (a, b, d) s
          = (a ++ s.processes.filter (fun p => p.username == u),
             b ++ [s.server_id],
             d ++ [(s.server_id, s.processes.filter (fun p => p.username == u))]) := by
        unfold usageStep dictInsert
        simp [ho, hm, hkey]
      rw [hstep]
      have hnd2 : (((d ++ [(s.server_id,
          s.processes.filter (fun p => p.username == u))]).map Prod.fst)
          ++ rest.map (fun s => s.server_id)).Nodup := by
        simpa [List.map_append, List.append_assoc] using hnd
      rw [ih _ _ _ hnd2]
      have hmo := matchedOn_of_online (u := u) ho
      have hco : contributing u (s :: rest) = s :: contributing u rest := by
        unfold contributing
        rw [List.filter_cons, if_pos hp]
      simp [hmo, hco, List.append_assoc]
    · have hstep : usageStep u (a, b, d) s = (a, b, d) := by
        unfold usageStep
        by_cases ho : s.online
        · rw [ho] at hp
          simp only [Bool.true_and, Bool.not_eq_true', Bool.not_eq_false] at hp
          simp [ho, hp]
        · simp [Bool.eq_false_iff.mpr ho]
      have hmo : matchedOn u s = [] := matchedOn_nil_cases hp
      have hco : contributing u (s :: rest) = contributing u rest := by
        unfold contributing
        rw [List.filter_cons, if_neg hp]
      rw [hstep, ih a b d hnd']
      simp [hmo, hco]

theorem userUsageFrom_char (u : String) (sts : List ServerStatus) (now : Int)
    (hnd : (sts.map (fun s => s.server_id)).Nodup) :
    userUsageFrom u sts now
      = { username := u,
          total_processes := ((sts.map (matchedOn u)).flatten).length,
          total_memory_used_mb :=
            (((sts.map (matchedOn u)).flatten).map (fun p => p.memory_used_mb)).sum,
          servers_used := (contributing u sts).map (fun s => s.server_id),
          processes_by_server :=
            (contributing u sts).map (fun s => (s.server_id, matchedOn u s)),
          last_updated := now } := by
  unfold userUsageFrom
  rw [usage_foldl_char u sts [] [] [] (by simpa using hnd)]
  simp

theorem flatten_matched (u : String) (sts : List ServerStatus) :
    (sts.map (matchedOn u)).flatten
      = ((contributing u sts).map (matchedOn u)).flatten := by
  induction sts with
  | nil => rfl
  | cons s rest ih =>
    by_cases hp : (s.online && !(s.processes.filter (fun p => p.username == u)).isEmpty) = true
    · have hco : contributing u (s :: rest) = s :: contributing u rest := by
        unfold contributing
        rw [List.filter_cons, if_pos hp]
      simp [hco, ih]
    · have hco : contributing u (s :: rest) = contributing u rest := by
        unfold contributing
        rw [List.filter_cons, if_neg hp]
      simp [hco, matchedOn_nil_cases hp, ih]

theorem cluster_ids_nodup (cfg : ClusterConfig) (exec : ExecOracle)
    (raises : String → Option String) (now : Int) (cache : Cache)
    (server_ids : Option (List String)) (hwf : CacheWF cache)
    (hnd : (cfg.servers.map (fun s => s.id)).Nodup) :
    ((get_cluster_status cfg exec raises now cache server_ids).1.servers.map
      (fun s => s.server_id)).Nodup := by
  rw [cluster_servers_ids cfg exec raises now cache server_ids hwf]
  exact List.Nodup.sublist
    ((serversToCheck_sublist cfg.servers server_ids).map _) hnd

theorem usage_eq_char (cfg : ClusterConfig) (exec : ExecOracle)
    (raises : String → Option String) (now : Int) (cache : Cache)
    (username : String) (server_ids : Option (List String))
    (hwf : CacheWF cache) (hnd : (cfg.servers.map (fun s => s.id)).Nodup) :
    (get_user_usage cfg exec raises now cache username server_ids).1
      = { username := username,
          total_processes :=
            (((get_cluster_status cfg exec raises now cache server_ids).1.servers.map
              (matchedOn username)).flatten).length,
          total_memory_used_mb :=
            ((((get_cluster_status cfg exec raises now cache server_ids).1.servers.map
              (matchedOn username)).flatten).map (fun p => p.memory_used_mb)).sum,
          servers_used :=
            (contributing username
              (get_cluster_status cfg exec raises now cache server_ids).1.servers).map
              (fun s => s.server_id),
          processes_by_server :=
            (contributing username
              (get_cluster_status cfg exec raises now cache server_ids).1.servers).map
              (fun s => (s.server_id, matchedOn username s)),
          last_updated := now } :=
  userUsageFrom_char username _ now
    (cluster_ids_nodup cfg exec raises now cache server_ids hwf hnd)

/-- C5: over any reachable cache state and a configuration with unique
server ids, a process appears in getUserUsage's result exactly when
its username equals the queried one and its hosting server resolved
online; the per-server entries are the order-preserving filters of the
server's process list; servers_used lists the contributing servers in
first-appearance (resolution) order; and total_memory_used_mb is the
sum of memory_used_mb over all matched processes (zero matches giving
empty lists and zero sums, not an error). -/
theorem claim_C5 (cfg : ClusterConfig) (exec : ExecOracle)
    (raises : String → Option String) (now : Int) (cache : Cache)
    (username : String) (server_ids : Option (List String))
    (hwf : CacheWF cache) (hnd : (cfg.servers.map (fun s => s.id)).Nodup) :
    (∀ p : ProcessInfo,
      (∃ e ∈ (get_user_usage cfg exec raises now cache username
          server_ids).1.processes_by_server, p ∈ e.2)
      ↔ ∃ s ∈ (get_cluster_status cfg exec raises now cache server_ids).1.servers,
          s.online = true ∧ p ∈ s.processes ∧ p.username = username)
    ∧ (get_user_usage cfg exec raises now cache username server_ids).1.processes_by_server
        = (contributing username
            (get_cluster_status cfg exec raises now cache server_ids).1.servers).map
            (fun s => (s.server_id, matchedOn username s))
    ∧ (get_user_usage cfg exec raises now cache username server_ids).1.servers_used
        = (contributing username
            (get_cluster_status cfg exec raises now cache server_ids).1.servers).map
            (fun s => s.server_id)
    ∧ (get_user_usage cfg exec raises now cache username server_ids).1.total_memory_used_mb
        = ((((get_cluster_status cfg exec raises now cache server_ids).1.servers.map
            (matchedOn username)).flatten).map (fun p => p.memory_used_mb)).sum
    ∧ (get_user_usage cfg exec raises now cache username server_ids).1.total_processes
        = (((get_cluster_status cfg exec raises now cache server_ids).1.servers.map
            (matchedOn username)).flatten).length := by
  have hch := usage_eq_char cfg exec raises now cache username server_ids hwf hnd
  refine ⟨?_, by rw [hch], by rw [hch], by rw [hch], by rw [hch]⟩
  intro p
  rw [hch]
  simp only [List.mem_map]
  constructor
  · rintro ⟨e, ⟨s, hs, rfl⟩, hp⟩
    have hsf := List.mem_filter.mp hs
    have hon : s.online = true := (Bool.and_eq_true _ _ ▸ hsf.2).1
    rw [matchedOn_of_online hon] at hp
    have hpf := List.mem_filter.mp hp
    exact ⟨s, hsf.1, hon, hpf.1, by simpa using hpf.2⟩
  · rintro ⟨s, hs, hon, hp, hu⟩
    have hpm : p ∈ matchedOn username s := by
      rw [matchedOn_of_online hon]
      exact List.mem_filter.mpr ⟨hp, by simp [hu]⟩
    have hne : (s.processes.filter (fun p => p.username == username)).isEmpty = false := by
      rw [List.isEmpty_eq_false]
      intro hnil
      rw [matchedOn_of_online hon, hnil] at hpm
      exact absurd hpm (List.not_mem_nil p)
    have hsc : s ∈ contributing username
        (get_cluster_status cfg exec raises now cache server_ids).1.servers :=
      List.mem_filter.mpr ⟨hs, by rw [hon, hne]; rfl⟩
    exact ⟨(s.server_id, matchedOn username s),
      ⟨s, hsc, rfl⟩, hpm⟩

/-- witness for C5 on the fixture where alice owns one process on the
online fixture server. -/
theorem claim_C5_witness :
    (get_user_usage cfgW execW noRaise 0 emptyCache "alice" none).1.servers_used
      = (contributing "alice"
          (get_cluster_status cfgW execW noRaise 0 emptyCache none).1.servers).map
          (fun s => s.server_id) :=
  (claim_C5 cfgW execW noRaise 0 emptyCache "alice" none
    (by intro k st ts hk; simp [emptyCache] at hk) (by decide)).2.2.1

/-- C10: every UserUsageSummary built by get_user_usage (over a
reachable cache and unique configured ids) is internally consistent:
servers_used is exactly the key list of processes_by_server in order,
every per-server process list is non-empty, total_processes is the sum
of their lengths, and total_memory_used_mb is the sum of
memory_used_mb over all listed processes. -/
theorem claim_C10 (cfg : ClusterConfig) (exec : ExecOracle)
    (raises : String → Option String) (now : Int) (cache : Cache)
    (username : String) (server_ids : Option (List String))
    (hwf : CacheWF cache) (hnd : (cfg.servers.map (fun s => s.id)).Nodup) :
    (get_user_usage cfg exec raises now cache username server_ids).1.servers_used
      = (get_user_usage cfg exec raises now cache username
          server_ids).1.processes_by_server.map Prod.fst
    ∧ (∀ e ∈ (get_user_usage cfg exec raises now cache username
        server_ids).1.processes_by_server, e.2 ≠ [])
    ∧ (get_user_usage cfg exec raises now cache username server_ids).1.total_processes
        = ((get_user_usage cfg exec raises now cache username
            server_ids).1.processes_by_server.map (fun e => e.2.length)).sum
    ∧ (get_user_usage cfg exec raises now cache username server_ids).1.total_memory_used_mb
        = (((get_user_usage cfg exec raises now cache username
            server_ids).1.processes_by_server.map Prod.snd).flatten.map
            (fun p => p.memory_used_mb)).sum := by
  have hch := usage_eq_char cfg exec raises now cache username server_ids hwf hnd
  refine ⟨?_, ?_, ?_, ?_⟩
  · rw [hch]
    simp [List.map_map, Function.comp]
  · rw [hch]
    simp only [List.mem_map]
    rintro e ⟨s, hs, rfl⟩
    have hsf := List.mem_filter.mp hs
    have hon : s.online = true := (Bool.and_eq_true _ _ ▸ hsf.2).1
    have hne : (s.processes.filter (fun p => p.username == username)).isEmpty = false := by
      have := (Bool.and_eq_true _ _ ▸ hsf.2).2
      simpa using this
    simp only [matchedOn_of_online hon]
    exact List.isEmpty_eq_false.mp hne
  · rw [hch]
    rw [flatten_matched]
    rw [List.length_flatten, List.map_map, List.map_map]
    rfl
  · rw [hch]
    rw [flatten_matched]
    rw [List.map_map]
    rfl

/-- witness for C10 on the same alice fixture. -/
theorem claim_C10_witness :
    (get_user_usage cfgW execW noRaise 0 emptyCache "alice" none).1.servers_used
      = (get_user_usage cfgW execW noRaise 0 emptyCache "alice"
          none).1.processes_by_server.map Prod.fst :=
  (claim_C10 cfgW execW noRaise 0 emptyCache "alice" none
    (by intro k st ts hk; simp [emptyCache] at hk) (by decide)).1

/- ===== kill engine lemmas ===== -/

theorem lookup_append_some {α β : Type} [BEq α] :
    ∀ (l₁ l₂ : List (α × β)) (a : α) (v : β),
      l₁.lookup a = some v → (l₁ ++ l₂).lookup a = some v := by
  intro l₁
  induction l₁ with
  | nil => intro l₂ a v h; simp [List.lookup] at h
  | cons kv rest ih =>
    intro l₂ a v h
    rcases kv with ⟨k, b⟩
    rcases hk : a == k with _ | _
    · rw [List.cons_append, List.lookup_cons, hk]
      rw [List.lookup_cons, hk] at h
      exact ih l₂ a v h
    · rw [List.cons_append, List.lookup_cons, hk]
      rw [List.lookup_cons, hk] at h
      exact h

theorem lookup_append_none {α β : Type} [BEq α] :
    ∀ (l₁ l₂ : List (α × β)) (a : α),
      l₁.lookup a = none → (l₁ ++ l₂).lookup a = l₂.lookup a := by
  intro l₁
  induction l₁ with
  | nil => intro l₂ a _; rfl
  | cons kv rest ih =>
    intro l₂ a h
    rcases kv with ⟨k, b⟩
    rcases hk : a == k with _ | _
    · rw [List.cons_append, List.lookup_cons, hk]
      rw [List.lookup_cons, hk] at h
      exact ih l₂ a h
    · rw [List.lookup_cons, hk] at h
      exact absurd h (by simp)

theorem killLoop_lookup_mono (cfg : ClusterConfig) (exec : ExecOracle) :
    ∀ (items : List (String × List ProcessInfo)) (results : List (String × String))
      (cache : Cache) (sid v : String),
      results.lookup sid = some v →
      (killLoop cfg exec items results cache).1.lookup sid = some v := by
  intro items
  induction items with
  | nil => intro results cache sid v h; exact h
  | cons it rest ih =>
    intro results cache sid v h
    rcases it with ⟨sid2, procs2⟩
    rw [killLoop]
    rcases hf : cfg.servers.find? (fun s => s.id == sid2) with _ | server
    · simp only [hf]
      exact ih _ _ sid v (lookup_append_some _ _ sid v h)
    · by_cases hr : (run_ssh_command cfg.settings.getSshTimeout
          (exec server.hostname (killCommandFor procs2)).1
          (exec server.hostname (killCommandFor procs2)).2).1
      · simp only [hf, hr, if_true]
        exact ih _ _ sid v (lookup_append_some _ _ sid v h)
      · simp only [hf, Bool.eq_false_iff.mpr hr, Bool.false_eq_true, if_false]
        exact ih _ _ sid v (lookup_append_some _ _ sid v h)

theorem killLoop_cache_other (cfg : ClusterConfig) (exec : ExecOracle) :
    ∀ (items : List (String × List ProcessInfo)) (results : List (String × String))
      (cache : Cache) (k : String),
      (∀ sid ∈ items.map Prod.fst, cacheKeyOf sid ≠ k) →
      (killLoop cfg exec items results cache).2.1 k = cache k := by
  intro items
  induction items with
  | nil => intro results cache k _; rfl
  | cons it rest ih =>
    intro results cache k hk
    rcases it with ⟨sid2, procs2⟩
    have hk2 : cacheKeyOf sid2 ≠ k := hk sid2 (by simp)
    have hkr : ∀ sid ∈ rest.map Prod.fst, cacheKeyOf sid ≠ k := by
      intro sid hs
      exact hk sid (by simp [hs])
    rw [killLoop]
    rcases hf : cfg.servers.find? (fun s => s.id == sid2) with _ | server
    · simp only [hf]
      exact ih _ _ k hkr
    · by_cases hr : (run_ssh_command cfg.settings.getSshTimeout
          (exec server.hostname (killCommandFor procs2)).1
          (exec server.hostname (killCommandFor procs2)).2).1
      · simp only [hf, hr, if_true]
        rw [ih _ _ k hkr]
        unfold cache_delete
        rw [if_neg (fun h => hk2 h.symm)]
      · simp only [hf, Bool.eq_false_iff.mpr hr, Bool.false_eq_true, if_false]
        exact ih _ _ k hkr

theorem killLoop_spec (cfg : ClusterConfig) (exec : ExecOracle) :
    ∀ (items : List (String × List ProcessInfo)) (results : List (String × String))
      (cache : Cache) (sid : String) (procs : List ProcessInfo) (server : ServerConfig),
      (sid, procs) ∈ items →
      (items.map Prod.fst).Nodup →
      results.lookup sid = none →
      cfg.servers.find? (fun s => s.id == sid) = some server →
      (((run_ssh_command cfg.settings.getSshTimeout
          (exec server.hostname (killCommandFor procs)).1
          (exec server.hostname (killCommandFor procs)).2).1 = true →
        (killLoop cfg exec items results cache).1.lookup sid
            = some ("Killed " ++ toString procs.length ++ " processes")
        ∧ (killLoop cfg exec items results cache).2.1 (cacheKeyOf sid) = none)
      ∧ ((run_ssh_command cfg.settings.getSshTimeout
          (exec server.hostname (killCommandFor procs)).1
          (exec server.hostname (killCommandFor procs)).2).1 = false →
        (killLoop cfg exec items results cache).1.lookup sid
            = some ("Failed to kill processes: "
                ++ (run_ssh_command cfg.settings.getSshTimeout
                    (exec server.hostname (killCommandFor procs)).1
                    (exec server.hostname (killCommandFor procs)).2).2.1)
        ∧ (killLoop cfg exec items results cache).2.1 (cacheKeyOf sid)
            = cache (cacheKeyOf sid))) := by
  intro items
  induction items with
  | nil => intro results cache sid procs server hmem; exact absurd hmem (List.not_mem_nil _)
  | cons it rest ih =>
    intro results cache sid procs server hmem hnd hres hfind
    rcases it with ⟨sid2, procs2⟩
    have hndc : (sid2 :: rest.map Prod.fst).Nodup := by simpa using hnd
    have hnd1 : sid2 ∉ rest.map Prod.fst := (List.nodup_cons.mp hndc).1
    have hnd2 : (rest.map Prod.fst).Nodup := (List.nodup_cons.mp hndc).2
    rcases List.mem_cons.mp hmem with hhd | htl
    · -- the head entry is the one of interest
      obtain ⟨h1, h2⟩ : sid2 = sid ∧ procs2 = procs := by
        injection hhd.symm with ha hb
        exact ⟨ha, hb⟩
      subst h1
      subst h2
      rw [killLoop]
      simp only [hfind]
      have hnotrest : ∀ s ∈ rest.map Prod.fst, cacheKeyOf s ≠ cacheKeyOf sid2 := by
        intro s hs h
        exact hnd1 (cacheKeyOf_inj h ▸ hs)
      by_cases hr : (run_ssh_command cfg.settings.getSshTimeout
          (exec server.hostname (killCommandFor procs2)).1
          (exec server.hostname (killCommandFor procs2)).2).1 = true
      · simp only [hr, if_true, Bool.true_eq_false]
        constructor
        · intro _
          constructor
          · refine killLoop_lookup_mono cfg exec rest _ _ sid2 _ ?_
            rw [lookup_append_none _ _ _ hres, List.lookup_cons]
            simp
          · rw [killLoop_cache_other cfg exec rest _ _ _ hnotrest]
            unfold cache_delete
            rw [if_pos rfl]
        · intro hcontra
          exact hcontra.elim
      · have hr' : (run_ssh_command cfg.settings.getSshTimeout
            (exec server.hostname (killCommandFor procs2)).1
            (exec server.hostname (killCommandFor procs2)).2).1 = false :=
          Bool.eq_false_iff.mpr hr
        simp only [hr', Bool.false_eq_true, if_false]
        constructor
        · intro hcontra
          exact hcontra.elim
        · intro _
          constructor
          · refine killLoop_lookup_mono cfg exec rest _ _ sid2 _ ?_
            rw [lookup_append_none _ _ _ hres, List.lookup_cons]
            simp
          · exact killLoop_cache_other cfg exec rest _ _ _ hnotrest
    · -- the entry of interest sits in the tail
      have hne : sid ≠ sid2 := by
        intro h
        exact hnd1 (h ▸ List.mem_map_of_mem Prod.fst htl)
      have hbeq : (sid == sid2) = false := by
        simpa using hne
      rw [killLoop]
      rcases hf : cfg.servers.find? (fun s => s.id == sid2) with _ | server2
      · simp only [hf]
        have hres2 : (results ++ [(sid2, "Server config not found")]).lookup sid = none := by
          rw [lookup_append_none _ _ _ hres, List.lookup_cons, hbeq]
          rfl
        exact ih _ _ sid procs server htl hnd2 hres2 hfind
      · by_cases hr2 : (run_ssh_command cfg.settings.getSshTimeout
            (exec server2.hostname (killCommandFor procs2)).1
            (exec server2.hostname (killCommandFor procs2)).2).1
        · simp only [hf, hr2, if_true]
          have hres2 : (results
              ++ [(sid2, "Killed " ++ toString procs2.length ++ " processes")]).lookup sid
              = none := by
            rw [lookup_append_none _ _ _ hres, List.lookup_cons, hbeq]
            rfl
          have hih := ih
            (results ++ [(sid2, "Killed " ++ toString procs2.length ++ " processes")])
            (cache_delete cache (cacheKeyOf sid2)) sid procs server htl hnd2 hres2 hfind
          constructor
          · intro h
            exact (hih.1 h)
          · intro h
            refine ⟨(hih.2 h).1, ?_⟩
            rw [(hih.2 h).2]
            unfold cache_delete
            rw [if_neg (fun hcontra => hne (cacheKeyOf_inj hcontra))]
        · simp only [hf, Bool.eq_false_iff.mpr hr2, Bool.false_eq_true, if_false]
          have hres2 : (results
              ++ [(sid2, "Failed to kill processes: "
                  ++ (run_ssh_command cfg.settings.getSshTimeout
                      (exec server2.hostname (killCommandFor procs2)).1
                      (exec server2.hostname (killCommandFor procs2)).2).2.1)]).lookup sid
              = none := by
            rw [lookup_append_none _ _ _ hres, List.lookup_cons, hbeq]
            rfl
          exact ih _ _ sid procs server htl hnd2 hres2 hfind

theorem usage_keys_nodup (cfg : ClusterConfig) (exec : ExecOracle)
    (raises : String → Option String) (now : Int) (cache : Cache)
    (username : String) (server_ids : Option (List String))
    (hwf : CacheWF cache) (hnd : (cfg.servers.map (fun s => s.id)).Nodup) :
    ((get_user_usage cfg exec raises now cache username
        server_ids).1.processes_by_server.map Prod.fst).Nodup := by
  rw [usage_eq_char cfg exec raises now cache username server_ids hwf hnd]
  simp only [List.map_map]
  refine List.Nodup.sublist ?_
    (cluster_ids_nodup cfg exec raises now cache server_ids hwf hnd)
  exact (List.filter_sublist _).map _

/-- C7: within kill_user_tasks with confirm = true, for each server
with matching processes whose config is found: when the single remote
termination command succeeds, the results map records the success
message with the kill count and that server's cache entry (under key
"server_status_" + id) is absent afterwards; when it fails, the
results map records the failure message carrying the runner's
diagnostic text and that server's cache entry is exactly what it was
after the usage computation (untouched by the kill phase). -/
theorem claim_C7 (cfg : ClusterConfig) (exec : ExecOracle)
    (raises : String → Option String) (now : Int) (cache : Cache)
    (username : String) (server_ids : Option (List String))
    (sid : String) (procs : List ProcessInfo) (server : ServerConfig)
    (hwf : CacheWF cache) (hnd : (cfg.servers.map (fun s => s.id)).Nodup)
    (hmem : (sid, procs) ∈ (get_user_usage cfg exec raises now cache username
        server_ids).1.processes_by_server)
    (hfind : cfg.servers.find? (fun s => s.id == sid) = some server) :
    (((run_ssh_command cfg.settings.getSshTimeout
        (exec server.hostname (killCommandFor procs)).1
        (exec server.hostname (killCommandFor procs)).2).1 = true →
      (kill_user_tasks cfg exec raises now cache username server_ids true).1.lookup sid
          = some ("Killed " ++ toString procs.length ++ " processes")
      ∧ (kill_user_tasks cfg exec raises now cache username server_ids true).2.1
          (cacheKeyOf sid) = none)
    ∧ ((run_ssh_command cfg.settings.getSshTimeout
        (exec server.hostname (killCommandFor procs)).1
        (exec server.hostname (killCommandFor procs)).2).1 = false →
      (kill_user_tasks cfg exec raises now cache username server_ids true).1.lookup sid
          = some ("Failed to kill processes: "
              ++ (run_ssh_command cfg.settings.getSshTimeout
                  (exec server.hostname (killCommandFor procs)).1
                  (exec server.hostname (killCommandFor procs)).2).2.1)
      ∧ (kill_user_tasks cfg exec raises now cache username server_ids true).2.1
          (cacheKeyOf sid)
        = (get_user_usage cfg exec raises now cache username server_ids).2.1
            (cacheKeyOf sid))) := by
  have hne : (get_user_usage cfg exec raises now cache username
      server_ids).1.processes_by_server.isEmpty = false :=
    List.isEmpty_eq_false.mpr (List.ne_nil_of_mem hmem)
  have hrun : kill_user_tasks cfg exec raises now cache username server_ids true
      = ((killLoop cfg exec
            (get_user_usage cfg exec raises now cache username
              server_ids).1.processes_by_server []
            (get_user_usage cfg exec raises now cache username server_ids).2.1).1,
         (killLoop cfg exec
            (get_user_usage cfg exec raises now cache username
              server_ids).1.processes_by_server []
            (get_user_usage cfg exec raises now cache username server_ids).2.1).2.1,
         (get_user_usage cfg exec raises now cache username server_ids).2.2
           ++ (killLoop cfg exec
            (get_user_usage cfg exec raises now cache username
              server_ids).1.processes_by_server []
            (get_user_usage cfg exec raises now cache username server_ids).2.1).2.2) := by
    simp only [kill_user_tasks, Bool.not_true, Bool.false_eq_true, if_false, hne]
  have hkeys := usage_keys_nodup cfg exec raises now cache username server_ids hwf hnd
  have hspec := killLoop_spec cfg exec
    (get_user_usage cfg exec raises now cache username server_ids).1.processes_by_server
    []
    (get_user_usage cfg exec raises now cache username server_ids).2.1
    sid procs server hmem hkeys rfl hfind
  constructor
  · intro hr
    rw [hrun]
    exact hspec.1 hr
  · intro hr
    rw [hrun]
    exact hspec.2 hr

set_option maxRecDepth 8000 in
/-- witness for C7: on the alice fixture the kill succeeds, the
results map records the count and the server's cache key is gone. -/
theorem claim_C7_witness :
    (kill_user_tasks cfgW execW noRaise 0 emptyCache "alice" none true).1.lookup "gpu01"
        = some "Killed 1 processes"
    ∧ (kill_user_tasks cfgW execW noRaise 0 emptyCache "alice" none true).2.1
        (cacheKeyOf "gpu01") = none := by
  have h := (claim_C7 cfgW execW noRaise 0 emptyCache "alice" none "gpu01"
      [{ pid := 11, username := "alice", gpu_index := 0, memory_used_mb := 50,
         process_name := "python" }] srvW
      (by intro k st ts hk; simp [emptyCache] at hk) (by decide) (by decide)
      (by decide)).1 (by decide)
  exact h

end GpuMon
